import Mathlib

/-!
Verification of `run_pipeline.py`, a sequential pipeline runner that
slices named sections out of a monolithic source artifact, executes each
section under failure isolation, gates dependent phases on filesystem
state, and aggregates per-phase outcomes into a run summary.

Texts are modelled as lists of characters; Python's `str.find` and slice
semantics (including negative indices) are embedded explicitly.  The
Python interpreter invoked through `exec` is an oracle parameter
`Interp` that consumes a program text and a filesystem and yields either
normal completion or a raised error, together with the (possibly
mutated) filesystem.
-/

namespace Pipeline

/-- Program text, modelled as a list of characters. -/
abbrev Text := List Char

/-- Coerce a Lean string literal to a `Text`. -/
def txt (s : String) : Text := s.toList

/-- First index at which `needle` occurs as a contiguous substring of
`hay`, or `none`; mirrors Python `hay.find(needle)` up to the `-1`
encoding. -/
def findSub : Text → Text → Option Nat
  | [], needle => if needle.isPrefixOf [] then some 0 else none
  | c :: t, needle =>
    if needle.isPrefixOf (c :: t) then some 0
    else (findSub t needle).map (· + 1)

/-- Python `hay.find(needle)`: first occurrence index, `-1` if absent. -/
def pyFind (hay needle : Text) : Int :=
  match findSub hay needle with
  | some n => (n : Int)
  | none => -1

/-- Clamp a Python slice endpoint to an actual index into a string of
length `n`: negative indices count from the end and are clamped below at
`0`; nonnegative indices are clamped above at `n`. -/
def clampIdx (n : Nat) (i : Int) : Nat :=
  if i < 0 then ((n : Int) + i).toNat else min i.toNat n

/-- Python slice `s[i:j]`. -/
def pySlice (s : Text) (i j : Int) : Text :=
  (s.take (clampIdx s.length j)).drop (clampIdx s.length i)

/-- Predicate: `needle` occurs in `hay` starting at index `i`. -/
def occursAt (hay needle : Text) (i : Nat) : Prop :=
  needle <+: hay.drop i

instance (hay needle : Text) (i : Nat) : Decidable (occursAt hay needle i) :=
  inferInstanceAs (Decidable (needle <+: hay.drop i))

/-- The extraction performed by `main` at lines 71–72 of
`run_pipeline.py`: `full_code[full_code.find(start):full_code.find(end)]`. -/
def extractSection (full startM endM : Text) : Text :=
  pySlice full (pyFind full startM) (pyFind full endM)

/-! ### Filesystem model

The working directory is a set of directories plus a map from file path
to file content.  Writing a file overwrites any previous content at the
same path (reads see the most recent write). -/

/-- The working directory: created directories and files with content. -/
structure Fs where
  dirs : List Text
  files : List (Text × Text)
deriving DecidableEq

/-- Read a file: content of the most recent write to `p`, if any. -/
def fsRead (fs : Fs) (p : Text) : Option Text :=
  fs.files.lookup p

/-- Write (create or overwrite) file `p` with content `c`. -/
def fsWrite (fs : Fs) (p c : Text) : Fs :=
  { fs with files := (p, c) :: fs.files }

/-- Does file `p` exist?  Mirrors `Path(p).exists()` for the data files
the gate inspects. -/
def fsHasFile (fs : Fs) (p : Text) : Bool :=
  (fsRead fs p).isSome

/-- All ancestor directories of a path, outermost first, the path
itself last; mirrors `mkdir(parents=True)` creating every ancestor. -/
def pathPrefixes (p : Text) : List Text :=
  ((List.range p.length).filterMap
    (fun i => if p.get? i = some '/' then some (p.take i) else none)) ++ [p]

/-- Record a directory if it is not already present (`exist_ok=True`). -/
def insertDir (ds : List Text) (d : Text) : List Text :=
  if d ∈ ds then ds else ds ++ [d]

/-- Model of `Path(p).mkdir(parents=True, exist_ok=True)`. -/
def mkdirP (fs : Fs) (p : Text) : Fs :=
  { fs with dirs := (pathPrefixes p).foldl insertDir fs.dirs }

/-- The fixed directory list of `setup_environment` (lines 15–21). -/
def directories : List Text :=
  [txt "data/raw", txt "data/processed", txt "data/augmented",
   txt "data/synthetic", txt "data/tess",
   txt "models", txt "models/tess",
   txt "reports/figures", txt "reports/figures/augmentation",
   txt "reports/figures/tess",
   txt "reports/validation", txt "reports/tess_analysis",
   txt "logs"]

/-- Function `setup_environment` (lines 13–26): create every directory in
`directories`, parents included, tolerating existing ones. -/
def setup_environment (fs : Fs) : Fs :=
  directories.foldl mkdirP fs

/-! ### Phase executor -/

/-- The Python interpreter behind `exec(code_section, globals())`: an
oracle taking the program text and the filesystem, returning either
normal completion or a raised error (carrying its message), together
with the filesystem as mutated by the executed code's side effects. -/
abbrev Interp := Text → Fs → Except Text Unit × Fs

/-- Model of `traceback.format_exc()`: the formatted trace of the active
exception; always a non-empty text. -/
def formatExc (e : Text) : Text :=
  txt "Traceback (most recent call last):\n" ++ e

/-- Python `str.lower()` (ASCII behaviour). -/
def pyLower (t : Text) : Text := t.map Char.toLower

/-- Python `str.replace(" ", "_")`: the pattern is a single character,
so this is a character-wise map. -/
def pyReplaceSpace (t : Text) : Text :=
  t.map (fun c => if c = ' ' then '_' else c)

/-- Normalization `phase_name.lower().replace(" ", "_")` (line 43). -/
def normalizeName (name : Text) : Text :=
  pyReplaceSpace (pyLower name)

/-- The error-log path for a phase (line 43):
`logs/<normalized name>_error.log`. -/
def logPath (name : Text) : Text :=
  txt "logs/" ++ normalizeName name ++ txt "_error.log"

/-- The content written to a phase's error log (lines 45–47). -/
def logContent (name ts e : Text) : Text :=
  txt "Error in " ++ name ++ txt "\nTimestamp: " ++ ts ++ txt "\n\n" ++
    formatExc e

/-- Function `run_phase` (lines 28–49): execute the phase body through the
interpreter; on normal completion return `true`; on a raised error
write the error log and return `false`.  `ts` is the run's clock
(`datetime.now().isoformat()`). -/
def run_phase (interp : Interp) (name body ts : Text) (fs : Fs) :
    Bool × Fs :=
  match interp body fs with
  | (Except.ok _, fs') => (true, fs')
  | (Except.error e, fs') =>
    (false, fsWrite fs' (logPath name) (logContent name ts e))

/-! ### Main pipeline -/

/-- The start marker of the Data Scraping section (line 71). -/
def startMarker : Text :=
  txt "class NASAExoplanetScraper:"

/-- The end marker of the Data Scraping section (line 72): a comment
rule of exactly 72 equals signs followed by the EDA banner line. -/
def endMarker : Text :=
  txt "# " ++ List.replicate 72 '=' ++
    txt "\n# EXOPLANET HUNTER AI - EXPLORATORY"

/-- The source artifact path (line 67). -/
def sourcePath : Text := txt "copy_of_ada.py"

/-- The gate-checked input file for EDA (line 85). -/
def keplerCsv : Text := txt "data/raw/kepler_cumulative.csv"

/-- The run-summary artifact path (line 94). -/
def resultsPath : Text := txt "pipeline_results.json"

/-- Serialization of one phase entry of the summary. -/
def renderPhase (p : Text × Text) : Text :=
  txt "\n    \"" ++ p.1 ++ txt "\": \"" ++ p.2 ++ txt "\","

/-- Serialization of the run summary (`json.dump(results, f, indent=2)`,
line 95); the claims constrain only the artifact's existence, not its
exact text. -/
def renderResults (ts : Text) (phases : List (Text × Text)) : Text :=
  txt "\x7b\n  \"timestamp\": \"" ++ ts ++ txt "\",\n  \"phases\": \x7b" ++
    (phases.map renderPhase).flatten ++ txt "\n  \x7d\n\x7d"

/-- Result of one invocation of `main`: either a crash (an uncaught
error propagated; carries the state at the moment of the crash) or
normal completion.  `phases` is the summary's phase map in insertion
order; `executed` lists the phases whose bodies were handed to the
executor, in order. -/
inductive Outcome where
  | crashed (msg : Text) (fs : Fs) (phases : List (Text × Text))
      (executed : List Text)
  | completed (fs : Fs) (phases : List (Text × Text))
      (executed : List Text)
deriving DecidableEq

/-- Did the run reach normal completion? -/
def Outcome.isCompleted : Outcome → Bool
  | .crashed _ _ _ _ => false
  | .completed _ _ _ => true

/-- The filesystem at the end of the run (or at the crash). -/
def Outcome.fs : Outcome → Fs
  | .crashed _ fs _ _ => fs
  | .completed fs _ _ => fs

/-- The summary's phase map at the end of the run (or at the crash). -/
def Outcome.phases : Outcome → List (Text × Text)
  | .crashed _ _ ps _ => ps
  | .completed _ ps _ => ps

/-- The phases whose bodies were executed, in order. -/
def Outcome.executed : Outcome → List Text
  | .crashed _ _ _ ex => ex
  | .completed _ _ ex => ex

/-- Function `main` (lines 51–107): bootstrap directories, load the source
artifact (an unreadable artifact crashes the run), slice out the Data
Scraping section, run it under `run_phase`, record its outcome, gate
EDA on the presence of `data/raw/kepler_cumulative.csv` (recording a
skip label either way, never executing an EDA body), and persist the
summary. -/
def main (interp : Interp) (ts : Text) (fs0 : Fs) : Outcome :=
  let fs1 := setup_environment fs0
  match fsRead fs1 sourcePath with
  | none =>
    Outcome.crashed (txt "FileNotFoundError: copy_of_ada.py") fs1 [] []
  | some full_code =>
    let scraper_section := extractSection full_code startMarker endMarker
    let r1 := run_phase interp (txt "Data Scraping") scraper_section ts fs1
    let phases1 : List (Text × Text) :=
      [(txt "data_scraping", if r1.1 then txt "success" else txt "failed")]
    let eda :=
      if fsHasFile r1.2 keplerCsv then txt "skipped - requires manual review"
      else txt "skipped - no data"
    let phases2 := phases1 ++ [(txt "eda", eda)]
    let fs3 := fsWrite r1.2 resultsPath (renderResults ts phases2)
    Outcome.completed fs3 phases2 [txt "Data Scraping"]

/-! ### Lemmas about `findSub` and `pySlice` -/

theorem findSub_empty_needle (hay : Text) : findSub hay [] = some 0 := by
  cases hay <;> simp [findSub, List.isPrefixOf]

theorem findSub_sound :
    ∀ (hay : Text) (needle : Text) (m : Nat),
      findSub hay needle = some m → needle <+: hay.drop m := by
  intro hay
  induction hay with
  | nil =>
    intro needle m h
    simp only [findSub] at h
    split at h
    · next hp =>
      cases h
      simpa using List.isPrefixOf_iff_prefix.mp hp
    · exact absurd h (by simp)
  | cons c t ih =>
    intro needle m h
    simp only [findSub] at h
    split at h
    · next hp =>
      cases h
      simpa using List.isPrefixOf_iff_prefix.mp hp
    · next hp =>
      rcases Option.map_eq_some'.mp h with ⟨m', hm', rfl⟩
      simpa using ih needle m' hm'

theorem findSub_some_le :
    ∀ (hay : Text) (needle : Text) (m : Nat),
      findSub hay needle = some m → m ≤ hay.length := by
  intro hay
  induction hay with
  | nil =>
    intro needle m h
    simp only [findSub] at h
    split at h
    · cases h; simp
    · exact absurd h (by simp)
  | cons c t ih =>
    intro needle m h
    simp only [findSub] at h
    split at h
    · cases h; simp
    · rcases Option.map_eq_some'.mp h with ⟨m', hm', rfl⟩
      have := ih needle m' hm'
      simpa using Nat.succ_le_succ this

theorem findSub_min :
    ∀ (hay : Text) (needle : Text) (m : Nat),
      findSub hay needle = some m →
      ∀ k, k < m → ¬ needle <+: hay.drop k := by
  intro hay
  induction hay with
  | nil =>
    intro needle m h
    simp only [findSub] at h
    split at h
    · cases h; omega
    · exact absurd h (by simp)
  | cons c t ih =>
    intro needle m h
    simp only [findSub] at h
    split at h
    · cases h; omega
    · next hp =>
      rcases Option.map_eq_some'.mp h with ⟨m', hm', rfl⟩
      intro k hk
      cases k with
      | zero =>
        intro hpre
        exact hp (List.isPrefixOf_iff_prefix.mpr (by simpa using hpre))
      | succ k' =>
        have : k' < m' := by omega
        simpa using ih needle m' hm' k' this

theorem findSub_complete :
    ∀ (hay : Text) (needle : Text) (k : Nat),
      needle <+: hay.drop k →
      ∃ m, m ≤ k ∧ findSub hay needle = some m := by
  intro hay
  induction hay with
  | nil =>
    intro needle k h
    have hn : needle = [] := List.prefix_nil.mp (by simpa using h)
    exact ⟨0, Nat.zero_le k, by simp [hn, findSub_empty_needle]⟩
  | cons c t ih =>
    intro needle k h
    by_cases hp : needle.isPrefixOf (c :: t)
    · exact ⟨0, Nat.zero_le k, by simp [findSub, hp]⟩
    · cases k with
      | zero =>
        exact absurd (List.isPrefixOf_iff_prefix.mpr (by simpa using h)) hp
      | succ k' =>
        rcases ih needle k' (by simpa using h) with ⟨m', hm'le, hm'⟩
        refine ⟨m' + 1, by omega, ?_⟩
        simp [findSub, hp, hm']

theorem findSub_eq_of_first (hay needle : Text) (i : Nat)
    (h1 : occursAt hay needle i)
    (h2 : ∀ k, k < i → ¬ occursAt hay needle k) :
    findSub hay needle = some i := by
  rcases findSub_complete hay needle i h1 with ⟨m, hle, hm⟩
  rcases Nat.lt_or_ge m i with hlt | hge
  · exact absurd (findSub_sound hay needle m hm) (h2 m hlt)
  · have : m = i := Nat.le_antisymm hle hge
    rwa [this] at hm

theorem findSub_some_length_eq (full needle : Text)
    (h : findSub full needle = some full.length) : full = [] := by
  have hpre := findSub_sound full needle full.length h
  have hn : needle = [] := List.prefix_nil.mp (by simpa using hpre)
  rw [hn, findSub_empty_needle] at h
  have h0 : (0 : Nat) = full.length := by injection h
  exact List.length_eq_zero.mp h0.symm

theorem pyFind_lt_length (full e : Text) (h : full ≠ []) :
    pyFind full e < (full.length : Int) := by
  unfold pyFind
  split
  · next m hm =>
    have hle := findSub_some_le full e m hm
    rcases Nat.lt_or_ge m full.length with hlt | hge
    · exact_mod_cast hlt
    · have : m = full.length := Nat.le_antisymm hle hge
      rw [this] at hm
      exact absurd (findSub_some_length_eq full e hm) h
  · have : 0 < full.length := List.length_pos.mpr h
    omega

theorem pySlice_neg_one_left (s : Text) (j : Int)
    (hj : j < (s.length : Int)) : pySlice s (-1) j = [] := by
  unfold pySlice clampIdx
  rw [List.drop_eq_nil_iff]
  simp only [List.length_take]
  split <;> split <;> omega

theorem pySlice_nonneg (s : Text) (i j : Nat)
    (hi : i ≤ s.length) (hj : j ≤ s.length) :
    pySlice s (i : Int) (j : Int) = (s.take j).drop i := by
  unfold pySlice clampIdx
  have h1 : ¬ ((i : Int) < 0) := by omega
  have h2 : ¬ ((j : Int) < 0) := by omega
  rw [if_neg h1, if_neg h2]
  simp [Int.toNat_natCast, Nat.min_eq_left hi, Nat.min_eq_left hj]

theorem extractSection_both_found (full s e : Text) (i j : Nat)
    (hs : findSub full s = some i) (he : findSub full e = some j) :
    extractSection full s e = (full.take j).drop i := by
  unfold extractSection pyFind
  rw [hs, he]
  exact pySlice_nonneg full i j (findSub_some_le full s i hs)
    (findSub_some_le full e j he)

theorem clampIdx_natCast (n i : Nat) (h : i ≤ n) :
    clampIdx n (i : Int) = i := by
  unfold clampIdx
  split <;> omega

theorem clampIdx_neg_one (n : Nat) : clampIdx n (-1) = n - 1 := by
  unfold clampIdx
  split <;> omega

/-! ### Filesystem lemmas -/

theorem fsRead_fsWrite_self (fs : Fs) (p c : Text) :
    fsRead (fsWrite fs p c) p = some c := by
  simp [fsRead, fsWrite]

theorem fsRead_fsWrite_ne (fs : Fs) (p c q : Text) (h : q ≠ p) :
    fsRead (fsWrite fs p c) q = fsRead fs q := by
  simp [fsRead, fsWrite, List.lookup, beq_eq_false_iff_ne.mpr h]

theorem mkdirP_files (fs : Fs) (p : Text) : (mkdirP fs p).files = fs.files :=
  rfl

theorem foldl_mkdirP_files (L : List Text) :
    ∀ fs : Fs, (L.foldl mkdirP fs).files = fs.files := by
  induction L with
  | nil => intro fs; rfl
  | cons d L ih => intro fs; simpa using ih (mkdirP fs d)

theorem setup_environment_files (fs : Fs) :
    (setup_environment fs).files = fs.files :=
  foldl_mkdirP_files directories fs

theorem fsRead_setup (fs : Fs) (p : Text) :
    fsRead (setup_environment fs) p = fsRead fs p := by
  unfold fsRead
  rw [setup_environment_files]

/-! ### Idempotence of the directory bootstrap -/

theorem insertDir_eq_of_mem {ds : List Text} {d : Text} (h : d ∈ ds) :
    insertDir ds d = ds :=
  if_pos h

theorem mem_insertDir_self (ds : List Text) (d : Text) :
    d ∈ insertDir ds d := by
  unfold insertDir
  split
  · assumption
  · simp

theorem mem_insertDir_of_mem {x : Text} {ds : List Text} (d : Text)
    (h : x ∈ ds) : x ∈ insertDir ds d := by
  unfold insertDir
  split
  · exact h
  · simp [h]

theorem mem_foldl_insertDir_of_mem (L : List Text) :
    ∀ (ds : List Text) (x : Text), x ∈ ds → x ∈ L.foldl insertDir ds := by
  induction L with
  | nil => intro ds x h; exact h
  | cons d L ih =>
    intro ds x h
    exact ih (insertDir ds d) x (mem_insertDir_of_mem d h)

theorem mem_foldl_insertDir (L : List Text) :
    ∀ (ds : List Text) (d : Text), d ∈ L → d ∈ L.foldl insertDir ds := by
  induction L with
  | nil => intro ds d h; cases h
  | cons a L ih =>
    intro ds d h
    rcases List.mem_cons.mp h with rfl | h
    · exact mem_foldl_insertDir_of_mem L (insertDir ds d) d
        (mem_insertDir_self ds d)
    · exact ih (insertDir ds a) d h

theorem foldl_insertDir_eq (L : List Text) :
    ∀ ds : List Text, (∀ d ∈ L, d ∈ ds) → L.foldl insertDir ds = ds := by
  induction L with
  | nil => intro ds _; rfl
  | cons a L ih =>
    intro ds h
    have ha : a ∈ ds := h a (by simp)
    rw [List.foldl_cons, insertDir_eq_of_mem ha]
    exact ih ds (fun d hd => h d (by simp [hd]))

theorem mkdirP_eq_of_mem {fs : Fs} {p : Text}
    (h : ∀ q ∈ pathPrefixes p, q ∈ fs.dirs) : mkdirP fs p = fs := by
  unfold mkdirP
  rw [foldl_insertDir_eq _ _ h]

theorem mkdirP_dirs_mem (fs : Fs) (p : Text) :
    ∀ q ∈ pathPrefixes p, q ∈ (mkdirP fs p).dirs := by
  intro q hq
  exact mem_foldl_insertDir (pathPrefixes p) fs.dirs q hq

theorem mkdirP_dirs_preserve {x : Text} {fs : Fs} (p : Text)
    (h : x ∈ fs.dirs) : x ∈ (mkdirP fs p).dirs :=
  mem_foldl_insertDir_of_mem (pathPrefixes p) fs.dirs x h

theorem foldl_mkdirP_dirs_preserve (L : List Text) :
    ∀ (fs : Fs) (x : Text), x ∈ fs.dirs → x ∈ (L.foldl mkdirP fs).dirs := by
  induction L with
  | nil => intro fs x h; exact h
  | cons d L ih =>
    intro fs x h
    exact ih (mkdirP fs d) x (mkdirP_dirs_preserve d h)

theorem foldl_mkdirP_dirs_all (L : List Text) :
    ∀ (fs : Fs) (d : Text), d ∈ L →
      ∀ q ∈ pathPrefixes d, q ∈ (L.foldl mkdirP fs).dirs := by
  induction L with
  | nil => intro fs d h; cases h
  | cons a L ih =>
    intro fs d h q hq
    rcases List.mem_cons.mp h with rfl | h
    · exact foldl_mkdirP_dirs_preserve L (mkdirP fs d) q
        (mkdirP_dirs_mem fs d q hq)
    · exact ih (mkdirP fs a) d h q hq

theorem foldl_mkdirP_eq (L : List Text) :
    ∀ fs : Fs, (∀ d ∈ L, ∀ q ∈ pathPrefixes d, q ∈ fs.dirs) →
      L.foldl mkdirP fs = fs := by
  induction L with
  | nil => intro fs _; rfl
  | cons a L ih =>
    intro fs h
    rw [List.foldl_cons, mkdirP_eq_of_mem (h a (by simp))]
    exact ih fs (fun d hd => h d (by simp [hd]))

theorem setup_environment_idem_aux (fs : Fs) :
    setup_environment (setup_environment fs) = setup_environment fs := by
  unfold setup_environment
  exact foldl_mkdirP_eq directories (directories.foldl mkdirP fs)
    (fun d hd => foldl_mkdirP_dirs_all directories fs d hd)

/-! ### Executor lemmas -/

theorem run_phase_ok (interp : Interp) (name body ts : Text) (fs fs' : Fs)
    (h : interp body fs = (Except.ok (), fs')) :
    run_phase interp name body ts fs = (true, fs') := by
  unfold run_phase
  rw [h]

theorem run_phase_err (interp : Interp) (name body ts : Text) (fs fs' : Fs)
    (e : Text) (h : interp body fs = (Except.error e, fs')) :
    run_phase interp name body ts fs =
      (false, fsWrite fs' (logPath name) (logContent name ts e)) := by
  unfold run_phase
  rw [h]

/-! ### Characterization of `main` -/

/-- The outcome of the Data Scraping phase inside a run of `main` whose
source artifact holds `code`: the boolean result and the filesystem
state right after the phase (the state the EDA gate inspects). -/
def scrapeResult (interp : Interp) (ts : Text) (fs0 : Fs) (code : Text) :
    Bool × Fs :=
  run_phase interp (txt "Data Scraping")
    (extractSection code startMarker endMarker) ts (setup_environment fs0)

/-- The EDA entry recorded by the gate, as a function of the filesystem
it inspects. -/
def edaLabel (fs : Fs) : Text :=
  if fsHasFile fs keplerCsv then txt "skipped - requires manual review"
  else txt "skipped - no data"

/-- The summary's phase map produced by a run of `main` whose source
artifact holds `code`. -/
def phaseMap (interp : Interp) (ts : Text) (fs0 : Fs) (code : Text) :
    List (Text × Text) :=
  [(txt "data_scraping",
    if (scrapeResult interp ts fs0 code).1 then txt "success"
    else txt "failed"),
   (txt "eda", edaLabel (scrapeResult interp ts fs0 code).2)]

theorem main_some (interp : Interp) (ts : Text) (fs0 : Fs) (code : Text)
    (h : fsRead fs0 sourcePath = some code) :
    main interp ts fs0 =
      Outcome.completed
        (fsWrite (scrapeResult interp ts fs0 code).2 resultsPath
          (renderResults ts (phaseMap interp ts fs0 code)))
        (phaseMap interp ts fs0 code) [txt "Data Scraping"] := by
  unfold main
  simp only [fsRead_setup, h]
  rfl

theorem main_none (interp : Interp) (ts : Text) (fs0 : Fs)
    (h : fsRead fs0 sourcePath = none) :
    main interp ts fs0 =
      Outcome.crashed (txt "FileNotFoundError: copy_of_ada.py")
        (setup_environment fs0) [] [] := by
  unfold main
  simp only [fsRead_setup, h]

/-! ### Claim theorems -/

/-- C9: running the directory-bootstrap step `setup_environment` twice in
succession is idempotent: the second invocation succeeds (it is total)
and the resulting filesystem state, created directories included, is
identical to the state after the first invocation. -/
theorem C9_setup_environment_idempotent (fs : Fs) :
    setup_environment (setup_environment fs) = setup_environment fs :=
  setup_environment_idem_aux fs

/-- C2: when `startMarker` first occurs at `i`, `endMarker` first occurs
at `j`, and `j` is strictly after `i`, the extraction returns exactly
the substring of `full` from the start of that `startMarker` occurrence
to the start of the first `endMarker` occurrence appearing after it
(which is `j`). -/
theorem C2_extract_well_formed (full s e : Text) (i j : Nat)
    (hs1 : occursAt full s i) (hs2 : ∀ k, k < i → ¬ occursAt full s k)
    (he1 : occursAt full e j) (he2 : ∀ k, k < j → ¬ occursAt full e k)
    (hij : i < j) :
    extractSection full s e = (full.take j).drop i ∧
    occursAt full e j ∧
    (∀ k, i < k → occursAt full e k → j ≤ k) := by
  have hs := findSub_eq_of_first full s i hs1 hs2
  have he := findSub_eq_of_first full e j he1 he2
  refine ⟨extractSection_both_found full s e i j hs he, he1, ?_⟩
  intro k hk hocc
  by_contra hlt
  push_neg at hlt
  exact he2 k hlt hocc

/-- Witness for C2 on the concrete input `"AxB"` with markers `"A"` and
`"B"`: the extraction yields the substring from index 0 to index 2. -/
theorem C2_witness :
    occursAt (txt "AxB") (txt "A") 0 ∧
    (∀ k, k < 0 → ¬ occursAt (txt "AxB") (txt "A") k) ∧
    occursAt (txt "AxB") (txt "B") 2 ∧
    (∀ k, k < 2 → ¬ occursAt (txt "AxB") (txt "B") k) ∧
    0 < 2 ∧
    extractSection (txt "AxB") (txt "A") (txt "B") =
      ((txt "AxB").take 2).drop 0 :=
  ⟨by decide, by decide, by decide, by decide, by decide,
   (C2_extract_well_formed (txt "AxB") (txt "A") (txt "B") 0 2
     (by decide) (by decide) (by decide) (by decide) (by decide)).1⟩

/-- Counterexample to C1 as stated: with the end marker absent from the
source text, the extraction does not fail and does produce a partial
result (a non-empty body), and a run over such a source artifact still
executes the Data Scraping phase. -/
theorem C1_counterexample :
    extractSection (startMarker ++ txt "\nX = 1\n") startMarker endMarker
      ≠ [] ∧
    (main (fun _ fs => (Except.ok (), fs)) (txt "T")
        ⟨[], [(sourcePath, startMarker ++ txt "\nX = 1\n")]⟩).executed
      ≠ [] := by
  constructor
  · decide
  · rw [main_some (fun _ fs => (Except.ok (), fs)) (txt "T")
      ⟨[], [(sourcePath, startMarker ++ txt "\nX = 1\n")]⟩
      (startMarker ++ txt "\nX = 1\n") (by rfl)]
    simp [Outcome.executed]

/-- C1 (amended): when a marker is missing or the markers are
misordered, the extraction does not fail; it returns the Python slice
`full[full.find(s):full.find(e)]` with `find` yielding `-1` for an
absent marker: an empty body when the start marker is absent or the
first end-marker position is not after the first start-marker position,
and the truncated partial body `full[i : len-1]` when only the end
marker is absent. -/
theorem C1_amended_extract_bad_markers (full s e : Text) :
    (findSub full s = none → extractSection full s e = []) ∧
    (∀ i, findSub full s = some i → findSub full e = none →
      extractSection full s e = (full.take (full.length - 1)).drop i) ∧
    (∀ i j, findSub full s = some i → findSub full e = some j → j ≤ i →
      extractSection full s e = []) := by
  refine ⟨?_, ?_, ?_⟩
  · intro hs
    by_cases hful : full = []
    · subst hful
      simp [extractSection, pySlice]
    · have Ps : pyFind full s = -1 := by unfold pyFind; rw [hs]
      unfold extractSection
      rw [Ps]
      exact pySlice_neg_one_left full (pyFind full e)
        (pyFind_lt_length full e hful)
  · intro i hs he
    have Ps : pyFind full s = (i : Int) := by unfold pyFind; rw [hs]
    have Pe : pyFind full e = -1 := by unfold pyFind; rw [he]
    unfold extractSection
    rw [Ps, Pe]
    unfold pySlice
    rw [clampIdx_natCast _ _ (findSub_some_le full s i hs), clampIdx_neg_one]
  · intro i j hs he hji
    have Ps : pyFind full s = (i : Int) := by unfold pyFind; rw [hs]
    have Pe : pyFind full e = (j : Int) := by unfold pyFind; rw [he]
    unfold extractSection
    rw [Ps, Pe]
    unfold pySlice
    rw [clampIdx_natCast _ _ (findSub_some_le full s i hs),
      clampIdx_natCast _ _ (findSub_some_le full e j he)]
    rw [List.drop_eq_nil_iff]
    simp only [List.length_take]
    omega

/-- Witness for the amended C1 on the concrete input `"ab"` with start
marker `"a"` present and end marker `"z"` absent: the extraction
returns the partial body `full[0 : len-1] = "a"` instead of failing. -/
theorem C1_amended_witness :
    findSub (txt "ab") (txt "a") = some 0 ∧
    findSub (txt "ab") (txt "z") = none ∧
    extractSection (txt "ab") (txt "a") (txt "z") =
      ((txt "ab").take ((txt "ab").length - 1)).drop 0 :=
  ⟨by decide, by decide,
   (C1_amended_extract_bad_markers (txt "ab") (txt "a") (txt "z")).2.1 0
     (by decide) (by decide)⟩

/-- C3: when the phase body raises, `run_phase` catches the error
(returning a value rather than propagating), returns `false`, and the
log artifact at `logs/<name lower-cased, spaces to underscores>_error.log`
exists afterwards and contains the phase's name, the run's timestamp,
and a non-empty failure trace. -/
theorem C3_run_phase_failure (interp : Interp) (name body ts : Text)
    (fs fs' : Fs) (e : Text)
    (h : interp body fs = (Except.error e, fs')) :
    run_phase interp name body ts fs =
      (false, fsWrite fs' (logPath name) (logContent name ts e)) ∧
    fsRead (run_phase interp name body ts fs).2 (logPath name) =
      some (logContent name ts e) ∧
    logPath name =
      txt "logs/" ++ pyReplaceSpace (pyLower name) ++ txt "_error.log" ∧
    name <:+: logContent name ts e ∧
    ts <:+: logContent name ts e ∧
    formatExc e <:+: logContent name ts e ∧
    formatExc e ≠ [] := by
  have hr := run_phase_err interp name body ts fs fs' e h
  refine ⟨hr, ?_, rfl, ?_, ?_, ?_, ?_⟩
  · rw [hr]
    exact fsRead_fsWrite_self fs' (logPath name) (logContent name ts e)
  · exact ⟨txt "Error in ",
      txt "\nTimestamp: " ++ ts ++ txt "\n\n" ++ formatExc e,
      by simp [logContent]⟩
  · exact ⟨txt "Error in " ++ name ++ txt "\nTimestamp: ",
      txt "\n\n" ++ formatExc e, by simp [logContent]⟩
  · exact ⟨txt "Error in " ++ name ++ txt "\nTimestamp: " ++ ts ++
      txt "\n\n", [], by simp [logContent]⟩
  · simp [formatExc, txt]

/-- Interpreter fixture for witnesses: every body completes normally
with no filesystem effect. -/
def wOk : Interp := fun _ fs => (Except.ok (), fs)

/-- Interpreter fixture for witnesses: every body raises. -/
def wErr : Interp := fun _ fs => (Except.error (txt "boom"), fs)

/-- Filesystem fixture for witnesses: empty working directory. -/
def wFsEmpty : Fs := ⟨[], []⟩

/-- Witness for C3: a phase named `"My Phase"` whose body raises leaves
a log at `logs/my_phase_error.log` with the name, timestamp and trace. -/
theorem C3_witness :
    wErr (txt "x") wFsEmpty = (Except.error (txt "boom"), wFsEmpty) ∧
    (run_phase wErr (txt "My Phase") (txt "x") (txt "2025-01-01") wFsEmpty =
      (false, fsWrite wFsEmpty (logPath (txt "My Phase"))
        (logContent (txt "My Phase") (txt "2025-01-01") (txt "boom"))) ∧
     fsRead (run_phase wErr (txt "My Phase") (txt "x") (txt "2025-01-01")
         wFsEmpty).2 (logPath (txt "My Phase")) =
       some (logContent (txt "My Phase") (txt "2025-01-01") (txt "boom")) ∧
     logPath (txt "My Phase") =
       txt "logs/" ++ pyReplaceSpace (pyLower (txt "My Phase")) ++
         txt "_error.log" ∧
     txt "My Phase" <:+:
       logContent (txt "My Phase") (txt "2025-01-01") (txt "boom") ∧
     txt "2025-01-01" <:+:
       logContent (txt "My Phase") (txt "2025-01-01") (txt "boom") ∧
     formatExc (txt "boom") <:+:
       logContent (txt "My Phase") (txt "2025-01-01") (txt "boom") ∧
     formatExc (txt "boom") ≠ []) :=
  ⟨rfl, C3_run_phase_failure wErr (txt "My Phase") (txt "x")
    (txt "2025-01-01") wFsEmpty wFsEmpty (txt "boom") rfl⟩

/-- C4: when the phase body completes without raising, `run_phase`
returns `true` regardless of what the body computed, adds nothing to
the body's resulting filesystem, and in particular (provided the body
itself left the phase's log path untouched) the log artifact for that
phase is neither created nor updated. -/
theorem C4_run_phase_success (interp : Interp) (name body ts : Text)
    (fs fs' : Fs)
    (h : interp body fs = (Except.ok (), fs')) :
    run_phase interp name body ts fs = (true, fs') ∧
    (run_phase interp name body ts fs).2 = fs' ∧
    (fsRead fs' (logPath name) = fsRead fs (logPath name) →
      fsRead (run_phase interp name body ts fs).2 (logPath name) =
        fsRead fs (logPath name)) := by
  have hr := run_phase_ok interp name body ts fs fs' h
  refine ⟨hr, by rw [hr], ?_⟩
  intro hpres
  rw [hr]
  exact hpres

/-- Witness for C4: a body that completes normally yields `true` and an
unchanged filesystem. -/
theorem C4_witness :
    wOk (txt "x") wFsEmpty = (Except.ok (), wFsEmpty) ∧
    (run_phase wOk (txt "My Phase") (txt "x") (txt "2025-01-01") wFsEmpty =
      (true, wFsEmpty) ∧
     (run_phase wOk (txt "My Phase") (txt "x") (txt "2025-01-01")
         wFsEmpty).2 = wFsEmpty ∧
     (fsRead wFsEmpty (logPath (txt "My Phase")) =
        fsRead wFsEmpty (logPath (txt "My Phase")) →
       fsRead (run_phase wOk (txt "My Phase") (txt "x") (txt "2025-01-01")
           wFsEmpty).2 (logPath (txt "My Phase")) =
         fsRead wFsEmpty (logPath (txt "My Phase")))) :=
  ⟨rfl, C4_run_phase_success wOk (txt "My Phase") (txt "x")
    (txt "2025-01-01") wFsEmpty wFsEmpty rfl⟩

/-- C5: in every run that reaches the EDA gate, the summary's `eda`
entry is determined solely by the existence of
`data/raw/kepler_cumulative.csv` in the filesystem the gate inspects
(absent: `skipped - no data`; present, content immaterial:
`skipped - requires manual review`), and the executor is never invoked
for EDA. -/
theorem C5_eda_gate (interp : Interp) (ts : Text) (fs0 : Fs) (code : Text)
    (h : fsRead fs0 sourcePath = some code) :
    ((main interp ts fs0).phases).lookup (txt "eda") =
      some (edaLabel (scrapeResult interp ts fs0 code).2) ∧
    (fsHasFile (scrapeResult interp ts fs0 code).2 keplerCsv = false →
      ((main interp ts fs0).phases).lookup (txt "eda") =
        some (txt "skipped - no data")) ∧
    (fsHasFile (scrapeResult interp ts fs0 code).2 keplerCsv = true →
      ((main interp ts fs0).phases).lookup (txt "eda") =
        some (txt "skipped - requires manual review")) ∧
    (main interp ts fs0).executed = [txt "Data Scraping"] := by
  have hm := main_some interp ts fs0 code h
  have hne : (txt "eda" == txt "data_scraping") = false := by decide
  have h1 : ((main interp ts fs0).phases).lookup (txt "eda") =
      some (edaLabel (scrapeResult interp ts fs0 code).2) := by
    rw [hm]
    simp [Outcome.phases, phaseMap, List.lookup, hne]
  refine ⟨h1, ?_, ?_, by rw [hm]; rfl⟩
  · intro hf
    rw [h1]
    simp [edaLabel, hf]
  · intro hf
    rw [h1]
    simp [edaLabel, hf]

/-- Filesystem fixture for witnesses: the source artifact is present
with content `"p"` (a text that contains neither marker). -/
def wFsWith : Fs := ⟨[], [(sourcePath, txt "p")]⟩

/-- Witness for C5: a run over a readable source artifact records an
`eda` entry determined by the gate and never executes an EDA body. -/
theorem C5_witness :
    fsRead wFsWith sourcePath = some (txt "p") ∧
    (((main wOk (txt "T") wFsWith).phases).lookup (txt "eda") =
      some (edaLabel (scrapeResult wOk (txt "T") wFsWith (txt "p")).2) ∧
    (fsHasFile (scrapeResult wOk (txt "T") wFsWith (txt "p")).2 keplerCsv
        = false →
      ((main wOk (txt "T") wFsWith).phases).lookup (txt "eda") =
        some (txt "skipped - no data")) ∧
    (fsHasFile (scrapeResult wOk (txt "T") wFsWith (txt "p")).2 keplerCsv
        = true →
      ((main wOk (txt "T") wFsWith).phases).lookup (txt "eda") =
        some (txt "skipped - requires manual review")) ∧
    (main wOk (txt "T") wFsWith).executed = [txt "Data Scraping"]) :=
  ⟨rfl, C5_eda_gate wOk (txt "T") wFsWith (txt "p") rfl⟩

/-- C6: when the source artifact cannot be opened, the run terminates by
propagating the error with no phase entry in the summary, nothing
executed, and no summary artifact written (the state of
`pipeline_results.json` at the crash is the initial one). -/
theorem C6_source_unreadable (interp : Interp) (ts : Text) (fs0 : Fs)
    (h : fsRead fs0 sourcePath = none) :
    main interp ts fs0 =
      Outcome.crashed (txt "FileNotFoundError: copy_of_ada.py")
        (setup_environment fs0) [] [] ∧
    (main interp ts fs0).phases = [] ∧
    (main interp ts fs0).executed = [] ∧
    (main interp ts fs0).isCompleted = false ∧
    fsRead (main interp ts fs0).fs resultsPath = fsRead fs0 resultsPath := by
  have hm := main_none interp ts fs0 h
  refine ⟨hm, by rw [hm]; rfl, by rw [hm]; rfl, by rw [hm]; rfl, ?_⟩
  rw [hm]
  simp only [Outcome.fs]
  exact fsRead_setup fs0 resultsPath

/-- Witness for C6: a run over an empty working directory crashes with
an empty summary. -/
theorem C6_witness :
    fsRead wFsEmpty sourcePath = none ∧
    (main wOk (txt "T") wFsEmpty =
      Outcome.crashed (txt "FileNotFoundError: copy_of_ada.py")
        (setup_environment wFsEmpty) [] [] ∧
    (main wOk (txt "T") wFsEmpty).phases = [] ∧
    (main wOk (txt "T") wFsEmpty).executed = [] ∧
    (main wOk (txt "T") wFsEmpty).isCompleted = false ∧
    fsRead (main wOk (txt "T") wFsEmpty).fs resultsPath =
      fsRead wFsEmpty resultsPath) :=
  ⟨rfl, C6_source_unreadable wOk (txt "T") wFsEmpty rfl⟩

/-- C7: every run that reaches completion has a phase map with exactly
one entry per attempted-or-skipped phase and no duplicates; the
attempted phase carries a terminal status in `{success, failed}`, the
gate-skipped phase carries a skip label, and only the attempted phase's
body was handed to the executor. -/
theorem C7_completion_invariant (interp : Interp) (ts : Text) (fs0 : Fs)
    (code : Text) (h : fsRead fs0 sourcePath = some code) :
    ∃ s1 s2 fsF,
      main interp ts fs0 =
        Outcome.completed fsF
          [(txt "data_scraping", s1), (txt "eda", s2)]
          [txt "Data Scraping"] ∧
      (s1 = txt "success" ∨ s1 = txt "failed") ∧
      (s2 = txt "skipped - no data" ∨
        s2 = txt "skipped - requires manual review") ∧
      txt "data_scraping" ≠ txt "eda" ∧
      ((main interp ts fs0).phases.map Prod.fst).Nodup ∧
      (main interp ts fs0).executed = [txt "Data Scraping"] := by
  have hm := main_some interp ts fs0 code h
  refine ⟨if (scrapeResult interp ts fs0 code).1 then txt "success"
      else txt "failed",
    edaLabel (scrapeResult interp ts fs0 code).2,
    fsWrite (scrapeResult interp ts fs0 code).2 resultsPath
      (renderResults ts (phaseMap interp ts fs0 code)),
    ?_, ?_, ?_, by decide, ?_, by rw [hm]; rfl⟩
  · rw [hm]
    rfl
  · cases hb : (scrapeResult interp ts fs0 code).1 with
    | false => right; simp [hb]
    | true => left; simp [hb]
  · unfold edaLabel
    cases hb : fsHasFile (scrapeResult interp ts fs0 code).2 keplerCsv with
    | false => left; simp [hb]
    | true => right; simp [hb]
  · rw [hm]
    simp [Outcome.phases, phaseMap]
    decide

/-- Witness for C7: the completion invariant at a concrete run. -/
theorem C7_witness :
    fsRead wFsWith sourcePath = some (txt "p") ∧
    (∃ s1 s2 fsF,
      main wErr (txt "T") wFsWith =
        Outcome.completed fsF
          [(txt "data_scraping", s1), (txt "eda", s2)]
          [txt "Data Scraping"] ∧
      (s1 = txt "success" ∨ s1 = txt "failed") ∧
      (s2 = txt "skipped - no data" ∨
        s2 = txt "skipped - requires manual review") ∧
      txt "data_scraping" ≠ txt "eda" ∧
      ((main wErr (txt "T") wFsWith).phases.map Prod.fst).Nodup ∧
      (main wErr (txt "T") wFsWith).executed = [txt "Data Scraping"]) :=
  ⟨rfl, C7_completion_invariant wErr (txt "T") wFsWith (txt "p") rfl⟩

/-- C8: every run whose source artifact is readable reaches completion
and reports it, regardless of the interpreter's behaviour on the phase
body (any number of phase failures included): no error propagates and
no distinct failure exit path exists. -/
theorem C8_reports_completion (interp : Interp) (ts : Text) (fs0 : Fs)
    (code : Text) (h : fsRead fs0 sourcePath = some code) :
    (main interp ts fs0).isCompleted = true := by
  rw [main_some interp ts fs0 code h]
  rfl

/-- Witness for C8: a run whose only phase fails still completes. -/
theorem C8_witness :
    fsRead wFsWith sourcePath = some (txt "p") ∧
    (main wErr (txt "T") wFsWith).isCompleted = true :=
  ⟨rfl, C8_reports_completion wErr (txt "T") wFsWith (txt "p") rfl⟩

/-- C10: when the marker-based slicing yields an empty Data Scraping
body and the interpreter (like Python's `exec` on an empty program)
completes it without error and without effect, the run records
`data_scraping` as `success` even though no phase code from the source
artifact was run. -/
theorem C10_empty_body_success (interp : Interp) (ts : Text) (fs0 : Fs)
    (code : Text)
    (h : fsRead fs0 sourcePath = some code)
    (hempty : extractSection code startMarker endMarker = [])
    (hexec : interp [] (setup_environment fs0) =
      (Except.ok (), setup_environment fs0)) :
    ((main interp ts fs0).phases).lookup (txt "data_scraping") =
      some (txt "success") ∧
    (main interp ts fs0).executed = [txt "Data Scraping"] := by
  have hsr : scrapeResult interp ts fs0 code =
      (true, setup_environment fs0) := by
    unfold scrapeResult
    rw [hempty]
    exact run_phase_ok interp (txt "Data Scraping") [] ts
      (setup_environment fs0) (setup_environment fs0) hexec
  have hm := main_some interp ts fs0 code h
  constructor
  · rw [hm]
    simp [Outcome.phases, phaseMap, hsr, List.lookup]
  · rw [hm]
    rfl

/-- Witness for C10: the source text `"p"` lacks the start marker, the
slice is empty, and the summary still records `data_scraping` as
`success`. -/
theorem C10_witness :
    fsRead wFsWith sourcePath = some (txt "p") ∧
    extractSection (txt "p") startMarker endMarker = [] ∧
    wOk [] (setup_environment wFsWith) =
      (Except.ok (), setup_environment wFsWith) ∧
    (((main wOk (txt "T") wFsWith).phases).lookup (txt "data_scraping") =
      some (txt "success") ∧
    (main wOk (txt "T") wFsWith).executed = [txt "Data Scraping"]) :=
  ⟨rfl, by decide, rfl,
   C10_empty_body_success wOk (txt "T") wFsWith (txt "p") rfl (by decide)
     rfl⟩

end Pipeline
